import Mathlib

/-!
Verification of the portfolio calculator engine (src/Portfolio_Calculator.py).

The engine is embedded shallowly over the rationals:

* The deterministic projector (the base-case loop, lines 151-176) becomes
  `baseCaseFrom` / `baseCase`, with Python's round-half-to-even at two decimal
  places modelled by `pyRound2` (records are rounded on capture, the carried
  balance is not).
* The Monte Carlo simulator (lines 179-193) becomes `simPathFrom` /
  `allSimulationsFrom`: randomness is modelled by an explicit draw stream
  `draw : ℕ → ℚ` indexed by the global number of samples consumed, since the
  source draws from one sequentially consumed generator seeded with 42.
* The aggregator (lines 196-203, 300-301, 366-374) becomes `percentileLin`
  (numpy's linear-interpolation percentile), `meanList`, `fractionGreater`
  and the division models `pyDiv` (Python float division, which raises
  ZeroDivisionError on a zero divisor) and `npDiv` (numpy float64 division,
  which silently yields NaN or ±Inf on a zero divisor).
-/

/-- The six scalar inputs collected by the sidebar (lines 140-149). -/
structure SimulationParameters where
  initial_balance : ℚ
  annual_return_pct : ℚ
  years : ℕ
  annual_contribution : ℚ
  volatility_pct : ℚ
  simulation_count : ℕ
deriving DecidableEq, Repr

/-- The input ranges enforced by the sidebar widgets. -/
def ValidParams (p : SimulationParameters) : Prop :=
  0 ≤ p.initial_balance ∧
  0 ≤ p.annual_return_pct ∧ p.annual_return_pct ≤ 100 ∧
  1 ≤ p.years ∧ p.years ≤ 50 ∧
  0 ≤ p.annual_contribution ∧
  1 ≤ p.volatility_pct ∧ p.volatility_pct ≤ 40 ∧
  100 ≤ p.simulation_count ∧ p.simulation_count ≤ 2000

instance (p : SimulationParameters) : Decidable (ValidParams p) := by
  unfold ValidParams; infer_instance

/-- Round to the nearest integer, ties to the even integer (Python's rounding
mode for the built-in round). -/
def roundHalfEven (x : ℚ) : ℤ :=
  if x - ⌊x⌋ < 1/2 then ⌊x⌋
  else if 1/2 < x - ⌊x⌋ then ⌊x⌋ + 1
  else if ⌊x⌋ % 2 = 0 then ⌊x⌋ else ⌊x⌋ + 1

/-- Python's round(x, 2): round to two decimal places, ties to even. -/
def pyRound2 (x : ℚ) : ℚ := (roundHalfEven (100 * x) : ℚ) / 100

/-- One row of the base-case table (the dict appended at lines 164-172). -/
structure YearlyRecord where
  year : ℕ
  balance : ℚ
  annual_gain : ℚ
  total_gain : ℚ
  total_contributed : ℚ
  total_invested : ℚ
  market_gains : ℚ
deriving DecidableEq, Repr, Inhabited

/-- The record dict appended at lines 164-172, given the loop state at the
start of the year: fields are computed from the post-contribution balance
`bal + contrib` and rounded on capture. -/
def yearlyRecordOf (initial contrib rate : ℚ) (year : ℕ) (bal tc : ℚ) : YearlyRecord :=
  { year := year
    balance := pyRound2 ((bal + contrib) * (1 + rate))
    annual_gain := pyRound2 ((bal + contrib) * (1 + rate) - (bal + contrib))
    total_gain := pyRound2 ((bal + contrib) * (1 + rate) - (initial + (tc + contrib)))
    total_contributed := pyRound2 (tc + contrib)
    total_invested := pyRound2 (initial + (tc + contrib))
    market_gains := pyRound2 ((bal + contrib) * (1 + rate) - (initial + (tc + contrib))) }

/-- The base-case loop (lines 157-173): `year` is the loop counter, `n` the
number of years still to process, `bal` the running balance and `tc` the
running total of contributions.  Each record is rounded on capture; the
carried balance is the unrounded `new_balance`. -/
def baseCaseFrom (initial contrib rate : ℚ) : ℕ → ℕ → ℚ → ℚ → List YearlyRecord
  | _, 0, _, _ => []
  | year, n + 1, bal, tc =>
    yearlyRecordOf initial contrib rate year bal tc ::
      baseCaseFrom initial contrib rate (year + 1) n ((bal + contrib) * (1 + rate)) (tc + contrib)

/-- The deterministic projector: the list `data` built by lines 151-173. -/
def baseCase (p : SimulationParameters) : List YearlyRecord :=
  baseCaseFrom p.initial_balance p.annual_contribution (p.annual_return_pct / 100)
    1 p.years p.initial_balance 0

/-- The running `balance` variable of the base-case loop after `n` years. -/
def balIter (initial contrib rate : ℚ) : ℕ → ℚ
  | 0 => initial
  | n + 1 => (balIter initial contrib rate n + contrib) * (1 + rate)

/-- The running `total_contributions` variable after `n` years. -/
def totalContributionsIter (contrib : ℚ) : ℕ → ℚ
  | 0 => 0
  | n + 1 => totalContributionsIter contrib n + contrib

/-- The module-level `balance` after the base-case loop (used at lines
211, 213-214, 367-373). -/
def finalBalance (p : SimulationParameters) : ℚ :=
  balIter p.initial_balance p.annual_contribution (p.annual_return_pct / 100) p.years

/-- The module-level `total_invested` set at line 175. -/
def totalInvestedFinal (p : SimulationParameters) : ℚ :=
  p.initial_balance + totalContributionsIter p.annual_contribution p.years

/-- The concrete scenario of the spec's testable properties. -/
def paramsScenario : SimulationParameters :=
  { initial_balance := 10000
    annual_return_pct := 7
    years := 10
    annual_contribution := 2000
    volatility_pct := 15
    simulation_count := 500 }

example : pyRound2 (1/1000) = 0 := by with_unfolding_all rfl
example : pyRound2 (5/1000) = 0 := by with_unfolding_all rfl
example : pyRound2 (15/1000) = 2/100 := by with_unfolding_all rfl
example : balIter 10000 2000 (7/100) 1 = 12840 := by with_unfolding_all rfl

/-! ### Basic structural lemmas about the base-case loop -/

theorem baseCaseFrom_succ (initial contrib rate : ℚ) (year n : ℕ) (bal tc : ℚ) :
    baseCaseFrom initial contrib rate year (n + 1) bal tc =
      yearlyRecordOf initial contrib rate year bal tc ::
        baseCaseFrom initial contrib rate (year + 1) n ((bal + contrib) * (1 + rate))
          (tc + contrib) := rfl

theorem baseCaseFrom_zero (initial contrib rate : ℚ) (year : ℕ) (bal tc : ℚ) :
    baseCaseFrom initial contrib rate year 0 bal tc = [] := rfl

theorem length_baseCaseFrom (initial contrib rate : ℚ) :
    ∀ (n year : ℕ) (bal tc : ℚ),
      (baseCaseFrom initial contrib rate year n bal tc).length = n := by
  intro n
  induction n with
  | zero => intro year bal tc; rfl
  | succ m ih =>
      intro year bal tc
      rw [baseCaseFrom_succ, List.length_cons, ih]

theorem length_baseCase (p : SimulationParameters) : (baseCase p).length = p.years :=
  length_baseCaseFrom _ _ _ _ _ _ _

theorem mem_baseCaseFrom_market_eq_total (initial contrib rate : ℚ) :
    ∀ (n year : ℕ) (bal tc : ℚ) (rec : YearlyRecord),
      rec ∈ baseCaseFrom initial contrib rate year n bal tc →
        rec.market_gains = rec.total_gain := by
  intro n
  induction n with
  | zero => intro year bal tc rec h; simp [baseCaseFrom_zero] at h
  | succ m ih =>
      intro year bal tc rec h
      rw [baseCaseFrom_succ] at h
      rcases List.mem_cons.mp h with h | h
      · subst h; rfl
      · exact ih _ _ _ _ h

theorem getLast?_baseCaseFrom_total_invested (initial contrib rate : ℚ) :
    ∀ (n year : ℕ) (bal tc : ℚ),
      (baseCaseFrom initial contrib rate year (n + 1) bal tc).getLast?.map
          (fun r => r.total_invested) =
        some (pyRound2 (initial + (tc + ((n : ℚ) + 1) * contrib))) := by
  intro n
  induction n with
  | zero =>
      intro year bal tc
      rw [baseCaseFrom_succ, baseCaseFrom_zero]
      simp [yearlyRecordOf]
  | succ m ih =>
      intro year bal tc
      rw [baseCaseFrom_succ, baseCaseFrom_succ, List.getLast?_cons_cons,
        ← baseCaseFrom_succ, ih]
      congr 2
      push_cast
      ring

/-! ### Monotonicity of the rounding function -/

theorem roundHalfEven_mono {x y : ℚ} (h : x ≤ y) : roundHalfEven x ≤ roundHalfEven y := by
  have hf : ⌊x⌋ ≤ ⌊y⌋ := Int.floor_le_floor h
  rcases eq_or_lt_of_le hf with heq | hlt
  · have hd : x - (⌊x⌋ : ℚ) ≤ y - (⌊x⌋ : ℚ) := by linarith
    unfold roundHalfEven
    rw [← heq]
    split_ifs <;> first | omega | linarith
  · unfold roundHalfEven
    split_ifs <;> omega

theorem pyRound2_mono {x y : ℚ} (h : x ≤ y) : pyRound2 x ≤ pyRound2 y := by
  unfold pyRound2
  have h100 : (100 : ℚ) * x ≤ 100 * y := by linarith
  have := roundHalfEven_mono h100
  have hc : ((roundHalfEven (100 * x) : ℤ) : ℚ) ≤ ((roundHalfEven (100 * y) : ℤ) : ℚ) := by
    exact_mod_cast this
  linarith

/-! ### Monotonicity of the recorded base-case balances -/

theorem chain'_balance_baseCaseFrom (initial contrib rate : ℚ)
    (hc : 0 ≤ contrib) (hr : 0 ≤ rate) :
    ∀ (n year : ℕ) (bal tc : ℚ), 0 ≤ bal →
      List.Chain' (fun a b : YearlyRecord => a.balance ≤ b.balance)
        (baseCaseFrom initial contrib rate year n bal tc) := by
  intro n
  induction n with
  | zero => intro year bal tc _; rw [baseCaseFrom_zero]; exact List.chain'_nil
  | succ m ih =>
      intro year bal tc hb
      have hnb : 0 ≤ (bal + contrib) * (1 + rate) :=
        mul_nonneg (by linarith) (by linarith)
      rw [baseCaseFrom_succ]
      refine List.Chain'.cons' (ih _ _ _ hnb) ?_
      intro rec2 hrec2
      cases m with
      | zero => rw [baseCaseFrom_zero] at hrec2; simp at hrec2
      | succ k =>
          rw [baseCaseFrom_succ] at hrec2
          simp only [List.head?_cons, Option.mem_def, Option.some.injEq] at hrec2
          subst hrec2
          show (yearlyRecordOf initial contrib rate year bal tc).balance ≤ _
          simp only [yearlyRecordOf]
          apply pyRound2_mono
          nlinarith [mul_nonneg (add_nonneg hnb hc) hr]

/-! ### Small parameter sets used as concrete witnesses -/

/-- A minimal valid parameter set (all balances stay at zero). -/
def paramsSimple : SimulationParameters :=
  { initial_balance := 0
    annual_return_pct := 0
    years := 1
    annual_contribution := 0
    volatility_pct := 1
    simulation_count := 100 }

/-- A valid parameter set whose initial balance is not a whole number of
cents, so rounding on capture loses information. -/
def paramsTiny : SimulationParameters :=
  { initial_balance := 1/1000
    annual_return_pct := 7
    years := 1
    annual_contribution := 0
    volatility_pct := 15
    simulation_count := 500 }

/-- The single record produced by the base case at `paramsSimple`. -/
def recSimple : YearlyRecord :=
  { year := 1, balance := 0, annual_gain := 0, total_gain := 0,
    total_contributed := 0, total_invested := 0, market_gains := 0 }

/-- C3: for initial_balance=10000, annual_return_pct=7, years=10,
annual_contribution=2000, the base-case final recorded balance is exactly
$49,238.71 (the claim's figure of ~$39,930 is wrong; see the
counterexample). -/
theorem scenario_final_balance :
    (baseCase paramsScenario).getLast?.map (fun r => r.balance) =
      some (4923871 / 100) := by
  with_unfolding_all rfl

/-- C3 counterexample: the base-case final balance at the stated concrete
parameters is $49,238.71, which exceeds $39,930 by more than $9,000, so it is
not approximately $39,930. -/
theorem scenario_final_balance_not_39930 :
    (baseCase paramsScenario).getLast?.map (fun r => r.balance) =
        some (4923871 / 100) ∧
      (39930 : ℚ) + 9000 < 4923871 / 100 :=
  ⟨by with_unfolding_all rfl, by norm_num⟩

/-- C9: in every record of the base case, the Market Gains field equals the
Total Gain field (lines 168 and 171 both store the rounded total_gain). -/
theorem market_gains_eq_total_gain (p : SimulationParameters) :
    ∀ rec ∈ baseCase p, rec.market_gains = rec.total_gain := fun rec h =>
  mem_baseCaseFrom_market_eq_total _ _ _ _ _ _ _ rec h

theorem market_gains_eq_total_gain_w :
    recSimple.market_gains = recSimple.total_gain :=
  market_gains_eq_total_gain paramsSimple recSimple
    (by rw [show baseCase paramsSimple = [recSimple] from by with_unfolding_all rfl]
        exact List.mem_cons_self recSimple [])

/-- C7 (amended): the last base-case record's total_invested field is the
rounded-on-capture snapshot of initial_balance + years * annual_contribution;
it equals that sum exactly only when the sum is a whole number of cents. -/
theorem last_total_invested_eq_rounded (p : SimulationParameters)
    (hy : 1 ≤ p.years) :
    (baseCase p).getLast?.map (fun r => r.total_invested) =
      some (pyRound2 (p.initial_balance + (p.years : ℚ) * p.annual_contribution)) := by
  obtain ⟨m, hm⟩ : ∃ m, p.years = m + 1 := ⟨p.years - 1, by omega⟩
  unfold baseCase
  rw [hm, getLast?_baseCaseFrom_total_invested]
  congr 2
  push_cast
  ring

theorem last_total_invested_eq_rounded_w :
    (baseCase paramsScenario).getLast?.map (fun r => r.total_invested) =
      some (pyRound2 (paramsScenario.initial_balance +
        (paramsScenario.years : ℚ) * paramsScenario.annual_contribution)) :=
  last_total_invested_eq_rounded paramsScenario (by decide)

/-- C7 counterexample: at the valid parameters initial_balance=0.001,
annual_contribution=0, years=1, the recorded total_invested is 0, not the
exact sum 0.001. -/
theorem last_total_invested_not_exact :
    ValidParams paramsTiny ∧
      (baseCase paramsTiny).getLast?.map (fun r => r.total_invested) = some 0 ∧
      paramsTiny.initial_balance +
          (paramsTiny.years : ℚ) * paramsTiny.annual_contribution = 1 / 1000 ∧
      (0 : ℚ) ≠ 1 / 1000 :=
  ⟨by norm_num [ValidParams, paramsTiny], by with_unfolding_all rfl,
    by norm_num [paramsTiny], by norm_num⟩

/-- C6: with a non-negative initial balance, return rate and contribution,
the recorded base-case balances are non-decreasing year over year. -/
theorem base_case_balance_monotone (p : SimulationParameters)
    (h0 : 0 ≤ p.initial_balance) (hr : 0 ≤ p.annual_return_pct)
    (hc : 0 ≤ p.annual_contribution) (i : ℕ)
    (hi : i + 1 < (baseCase p).length) :
    ((baseCase p).getD i default).balance ≤
      ((baseCase p).getD (i + 1) default).balance := by
  have hrate : 0 ≤ p.annual_return_pct / 100 := by positivity
  have hchain : List.Chain' (fun a b : YearlyRecord => a.balance ≤ b.balance)
      (baseCase p) :=
    chain'_balance_baseCaseFrom p.initial_balance p.annual_contribution
      (p.annual_return_pct / 100) hc hrate p.years 1 p.initial_balance 0 h0
  rw [List.chain'_iff_get] at hchain
  have h1 : i < (baseCase p).length := by omega
  rw [List.getD_eq_getElem _ _ h1, List.getD_eq_getElem _ _ hi]
  have := hchain i (by omega)
  simpa using this

theorem base_case_balance_monotone_w :
    ((baseCase paramsScenario).getD 0 default).balance ≤
      ((baseCase paramsScenario).getD 1 default).balance :=
  base_case_balance_monotone paramsScenario (by decide) (by decide) (by decide) 0
    (by rw [length_baseCase]; decide)

/-! ### The Monte Carlo simulator (lines 179-193)

Randomness is modelled by an explicit draw stream `draw : ℕ → ℚ`: the source
seeds one global numpy generator (line 179) and consumes one normal sample
per year per path, strictly sequentially, so the sample used in year `j`
(0-based) of path `p` is draw number `p * years + j`. -/

/-- The inner path loop (lines 185-190): `bal` is the running `sim_balance`,
`k` the index of the next draw to consume, `n` the years still to simulate.
The appended value is floored at zero; the carried balance is not. -/
def simPathFrom (contrib : ℚ) (draw : ℕ → ℚ) : ℚ → ℕ → ℕ → List ℚ
  | _, _, 0 => []
  | bal, k, n + 1 =>
    max ((bal + contrib) * (1 + draw k)) 0 ::
      simPathFrom contrib draw ((bal + contrib) * (1 + draw k)) (k + 1) n

/-- The outer simulation loop (lines 183-191): `k` is the global draw
counter, `m` the number of paths still to generate. -/
def allSimulationsFrom (initial contrib : ℚ) (draw : ℕ → ℚ) (years : ℕ) :
    ℕ → ℕ → List (List ℚ)
  | _, 0 => []
  | k, m + 1 =>
    simPathFrom contrib draw initial k years ::
      allSimulationsFrom initial contrib draw years (k + years) m

/-- The full simulation matrix `all_simulations` (one row per path). -/
def allSimulations (initial contrib : ℚ) (draw : ℕ → ℚ) (years sims : ℕ) :
    List (List ℚ) :=
  allSimulationsFrom initial contrib draw years 0 sims

/-- The running `sim_balance` variable after `n` years of one path that
starts its draws at global index 0: the loop multiplies the unfloored
balance forward (line 189); only the appended copy is floored (line 190). -/
def simRawBalance (initial contrib : ℚ) (draw : ℕ → ℚ) : ℕ → ℚ
  | 0 => initial
  | n + 1 =>
    (simRawBalance initial contrib draw n + contrib) * (1 + draw n)

/-- Modelled from the spec: the path recurrence as the spec's words read,
with the floored value `max(balance, 0)` carried into the next year as the
path's running balance (src carries the unfloored value instead). -/
def simPathFlooredFrom (contrib : ℚ) (draw : ℕ → ℚ) : ℚ → ℕ → ℕ → List ℚ
  | _, _, 0 => []
  | bal, k, n + 1 =>
    max ((bal + contrib) * (1 + draw k)) 0 ::
      simPathFlooredFrom contrib draw (max ((bal + contrib) * (1 + draw k)) 0) (k + 1) n

theorem simPathFrom_succ (contrib : ℚ) (draw : ℕ → ℚ) (bal : ℚ) (k n : ℕ) :
    simPathFrom contrib draw bal k (n + 1) =
      max ((bal + contrib) * (1 + draw k)) 0 ::
        simPathFrom contrib draw ((bal + contrib) * (1 + draw k)) (k + 1) n := rfl

theorem allSimulationsFrom_succ (initial contrib : ℚ) (draw : ℕ → ℚ)
    (years k m : ℕ) :
    allSimulationsFrom initial contrib draw years k (m + 1) =
      simPathFrom contrib draw initial k years ::
        allSimulationsFrom initial contrib draw years (k + years) m := rfl

/-- A draw stream whose first sample is the return rate -2 (a legal draw
from an unbounded Normal distribution) and whose later samples are 0. -/
def cexDraw : ℕ → ℚ := fun n => if n = 0 then -2 else 0

/-- C1 counterexample: with initial balance 100, contribution 100 and first
sampled return -2, the loop carries the negative balance -200 into year 2
(only the appended copy is floored), and the produced path [0, 0] differs
from the path [0, 100] that the spec's floored-carry recurrence produces. -/
theorem sim_carried_balance_negative :
    simRawBalance 100 100 cexDraw 1 < 0 ∧
      simPathFrom 100 cexDraw 100 0 2 =
        max (-200) 0 :: simPathFrom 100 cexDraw (-200) 1 1 ∧
      simPathFrom 100 cexDraw 100 0 2 = [0, 0] ∧
      simPathFlooredFrom 100 cexDraw 100 0 2 = [0, 100] := by
  refine ⟨?_, ?_, ?_, ?_⟩
  · have h : simRawBalance 100 100 cexDraw 1 = -200 := by with_unfolding_all rfl
    rw [h]; norm_num
  · with_unfolding_all rfl
  · with_unfolding_all rfl
  · with_unfolding_all rfl

/-- C1 (amended): every value appended to a path is floored at zero, hence
non-negative; the carried running balance is the unfloored product and can
be negative (see the counterexample). -/
theorem simPath_entries_nonneg (contrib : ℚ) (draw : ℕ → ℚ) :
    ∀ (n k : ℕ) (bal : ℚ) (x : ℚ), x ∈ simPathFrom contrib draw bal k n → 0 ≤ x := by
  intro n
  induction n with
  | zero => intro k bal x h; simp [simPathFrom] at h
  | succ m ih =>
      intro k bal x h
      rw [simPathFrom_succ] at h
      rcases List.mem_cons.mp h with h | h
      · subst h; exact le_max_right _ _
      · exact ih _ _ _ h

theorem simPath_entries_nonneg_w : (0 : ℚ) ≤ 0 :=
  simPath_entries_nonneg 0 (fun _ => 0) 1 0 0 0
    (by rw [show simPathFrom 0 (fun _ => 0) 0 0 1 = [0] from by with_unfolding_all rfl]
        exact List.mem_cons_self 0 [])

/-! ### C10: prefix stability in the simulation count -/

theorem take_allSimulationsFrom (initial contrib : ℚ) (draw : ℕ → ℚ) (years : ℕ) :
    ∀ (n2 n1 k : ℕ), n1 ≤ n2 →
      (allSimulationsFrom initial contrib draw years k n2).take n1 =
        allSimulationsFrom initial contrib draw years k n1 := by
  intro n2
  induction n2 with
  | zero =>
      intro n1 k h
      have h0 : n1 = 0 := by omega
      subst h0; rfl
  | succ m ih =>
      intro n1 k h
      cases n1 with
      | zero => rfl
      | succ j =>
          rw [allSimulationsFrom_succ, List.take_succ_cons, ih j _ (by omega),
            ← allSimulationsFrom_succ]

/-- C10: with all other parameters fixed and one shared sequential draw
stream, the first N1 rows of the matrix generated with simulation_count = N2
equal the whole matrix generated with simulation_count = N1, because each
path consumes exactly `years` draws regardless of the simulation count. -/
theorem allSimulations_take (initial contrib : ℚ) (draw : ℕ → ℚ)
    (years n1 n2 : ℕ) (h : n1 ≤ n2) :
    (allSimulations initial contrib draw years n2).take n1 =
      allSimulations initial contrib draw years n1 :=
  take_allSimulationsFrom initial contrib draw years n2 n1 0 h

theorem allSimulations_take_w :
    (allSimulations 0 0 (fun _ => 0) 1 2).take 1 =
      allSimulations 0 0 (fun _ => 0) 1 1 :=
  allSimulations_take 0 0 (fun _ => 0) 1 1 2 (by decide)

/-! ### The aggregator: numpy percentiles with linear interpolation
(lines 196-203) -/

/-- The linear-interpolation value at fractional rank `r` over a sorted
list `s`: with `i = floor r`, interpolate between `s[i]` and `s[i+1]`
(numpy's default interpolation for np.percentile). -/
def interpAt (s : List ℚ) (r : ℚ) : ℚ :=
  s.getD (⌊r⌋).toNat 0 +
    (r - ((⌊r⌋).toNat : ℚ)) *
      (s.getD ((⌊r⌋).toNat + 1) (s.getD (⌊r⌋).toNat 0) - s.getD (⌊r⌋).toNat 0)

/-- np.percentile(xs, p): sort the data and interpolate at the virtual rank
p/100 * (len - 1). -/
def percentileLin (xs : List ℚ) (p : ℚ) : ℚ :=
  interpAt (xs.insertionSort (· ≤ ·)) (p * ((xs.length : ℚ) - 1) / 100)

/-- Year column `j` of the simulation matrix (axis=0 aggregation input). -/
def column (m : List (List ℚ)) (j : ℕ) : List ℚ :=
  m.map (fun row => row.getD j 0)

/-- In a sorted list, earlier entries are at most later entries, whatever
the defaults, as long as the later index is in range. -/
theorem sorted_getD_le (s : List ℚ) (hs : s.Sorted (· ≤ ·)) {i j : ℕ}
    (hij : i ≤ j) (hj : j < s.length) (d e : ℚ) : s.getD i d ≤ s.getD j e := by
  have hi : i < s.length := lt_of_le_of_lt hij hj
  rw [List.getD_eq_getElem _ _ hi, List.getD_eq_getElem _ _ hj]
  rcases eq_or_lt_of_le hij with rfl | hlt
  · exact le_refl _
  · have := hs.rel_get_of_lt (a := ⟨i, hi⟩) (b := ⟨j, hj⟩) (Fin.mk_lt_mk.mpr hlt)
    simpa using this

theorem getD_le_getD_succ (s : List ℚ) (hs : s.Sorted (· ≤ ·)) {i : ℕ}
    (hi : i < s.length) : s.getD i 0 ≤ s.getD (i + 1) (s.getD i 0) := by
  rcases lt_or_le (i + 1) s.length with h | h
  · exact sorted_getD_le s hs (by omega) h 0 _
  · rw [List.getD_eq_default _ _ h]

/-- Monotonicity of linear interpolation over a sorted list, for ranks
within [0, len - 1]. -/
theorem interpAt_mono (s : List ℚ) (hs : s.Sorted (· ≤ ·)) (hne : s ≠ [])
    {r1 r2 : ℚ} (h0 : 0 ≤ r1) (h12 : r1 ≤ r2) (h2 : r2 ≤ (s.length : ℚ) - 1) :
    interpAt s r1 ≤ interpAt s r2 := by
  have hn1 : 1 ≤ s.length := List.length_pos.mpr hne
  have hf1 : (0 : ℤ) ≤ ⌊r1⌋ := Int.floor_nonneg.mpr h0
  have hf2 : (0 : ℤ) ≤ ⌊r2⌋ := le_trans hf1 (Int.floor_le_floor h12)
  unfold interpAt
  set i1 := (⌊r1⌋).toNat with hi1def
  set i2 := (⌊r2⌋).toNat with hi2def
  have hc1 : ((i1 : ℤ)) = ⌊r1⌋ := Int.toNat_of_nonneg hf1
  have hc2 : ((i2 : ℤ)) = ⌊r2⌋ := Int.toNat_of_nonneg hf2
  have hq1 : ((i1 : ℚ)) ≤ r1 := by
    have h' : ((⌊r1⌋ : ℤ) : ℚ) ≤ r1 := Int.floor_le r1
    rw [← hc1] at h'
    exact_mod_cast h'
  have hq1' : r1 < (i1 : ℚ) + 1 := by
    have h' : r1 < ((⌊r1⌋ : ℤ) : ℚ) + 1 := Int.lt_floor_add_one r1
    rw [← hc1] at h'
    exact_mod_cast h'
  have hq2 : ((i2 : ℚ)) ≤ r2 := by
    have h' : ((⌊r2⌋ : ℤ) : ℚ) ≤ r2 := Int.floor_le r2
    rw [← hc2] at h'
    exact_mod_cast h'
  have hi12 : i1 ≤ i2 := by
    have := Int.floor_le_floor h12
    omega
  have hi2n : i2 < s.length := by
    have hfl : ⌊r2⌋ ≤ (s.length : ℤ) - 1 := by
      have hcast : ((s.length : ℤ) - 1 : ℤ) = ⌊(((s.length : ℚ)) - 1 : ℚ)⌋ := by
        rw [show (((s.length : ℚ)) - 1 : ℚ) = (((s.length : ℤ) - 1 : ℤ) : ℚ) by push_cast; ring]
        rw [Int.floor_intCast]
      rw [hcast]
      exact Int.floor_le_floor h2
    omega
  rcases eq_or_lt_of_le hi12 with heq | hlt
  · rw [← heq]
    have hab : s.getD i1 0 ≤ s.getD (i1 + 1) (s.getD i1 0) :=
      getD_le_getD_succ s hs (by omega)
    have hmul : (r1 - (i1 : ℚ)) * (s.getD (i1 + 1) (s.getD i1 0) - s.getD i1 0) ≤
        (r2 - (i1 : ℚ)) * (s.getD (i1 + 1) (s.getD i1 0) - s.getD i1 0) :=
      mul_le_mul_of_nonneg_right (by linarith) (by linarith)
    linarith
  · have hi1n : i1 < s.length := by omega
    have hi1n' : i1 + 1 < s.length := by omega
    have hab1 : s.getD i1 0 ≤ s.getD (i1 + 1) (s.getD i1 0) :=
      getD_le_getD_succ s hs hi1n
    have hb1a2 : s.getD (i1 + 1) (s.getD i1 0) ≤ s.getD i2 0 :=
      sorted_getD_le s hs (by omega) hi2n _ _
    have hab2 : s.getD i2 0 ≤ s.getD (i2 + 1) (s.getD i2 0) :=
      getD_le_getD_succ s hs hi2n
    have hstep1 : s.getD i1 0 +
        (r1 - (i1 : ℚ)) * (s.getD (i1 + 1) (s.getD i1 0) - s.getD i1 0) ≤
          s.getD (i1 + 1) (s.getD i1 0) := by
      nlinarith [mul_nonneg (by linarith : (0 : ℚ) ≤ 1 - (r1 - (i1 : ℚ)))
        (by linarith : (0 : ℚ) ≤ s.getD (i1 + 1) (s.getD i1 0) - s.getD i1 0)]
    have hstep2 : s.getD i2 0 ≤ s.getD i2 0 +
        (r2 - (i2 : ℚ)) * (s.getD (i2 + 1) (s.getD i2 0) - s.getD i2 0) := by
      nlinarith [mul_nonneg (by linarith : (0 : ℚ) ≤ r2 - (i2 : ℚ))
        (by linarith : (0 : ℚ) ≤ s.getD (i2 + 1) (s.getD i2 0) - s.getD i2 0)]
    linarith

/-- Monotonicity of np.percentile in the percentile rank, for any
non-empty data list and ranks within [0, 100]. -/
theorem percentileLin_mono (xs : List ℚ) (hne : xs ≠ []) {p q : ℚ}
    (hp : 0 ≤ p) (hpq : p ≤ q) (hq : q ≤ 100) :
    percentileLin xs p ≤ percentileLin xs q := by
  unfold percentileLin
  have hs : (xs.insertionSort (· ≤ ·)).Sorted (· ≤ ·) :=
    List.sorted_insertionSort _ xs
  have hlen : (xs.insertionSort (· ≤ ·)).length = xs.length :=
    List.length_insertionSort _ xs
  have hn1 : 1 ≤ xs.length := List.length_pos.mpr hne
  have hne' : xs.insertionSort (· ≤ ·) ≠ [] := by
    intro h
    rw [h] at hlen
    exact hne (List.length_eq_zero.mp hlen.symm)
  have hlq : (1 : ℚ) ≤ (xs.length : ℚ) := by exact_mod_cast hn1
  apply interpAt_mono _ hs hne'
  · exact div_nonneg (mul_nonneg hp (by linarith)) (by norm_num)
  · apply div_le_div_of_nonneg_right ?_ (by norm_num : (0:ℚ) ≤ 100)
    exact mul_le_mul_of_nonneg_right hpq (by linarith)
  · rw [hlen, div_le_iff₀ (by norm_num : (0:ℚ) < 100)]
    nlinarith [mul_le_mul_of_nonneg_right hq (by linarith : (0:ℚ) ≤ (xs.length : ℚ) - 1)]

theorem length_allSimulationsFrom (initial contrib : ℚ) (draw : ℕ → ℚ)
    (years : ℕ) : ∀ (m k : ℕ),
      (allSimulationsFrom initial contrib draw years k m).length = m := by
  intro m
  induction m with
  | zero => intro k; rfl
  | succ j ih => intro k; rw [allSimulationsFrom_succ, List.length_cons, ih]

theorem length_column (m : List (List ℚ)) (j : ℕ) :
    (column m j).length = m.length := List.length_map m _

/-- Year column `j` of the simulation matrix produced by the given
parameters and draw stream. -/
def yearColumn (initial contrib : ℚ) (draw : ℕ → ℚ) (years sims j : ℕ) : List ℚ :=
  column (allSimulations initial contrib draw years sims) j

theorem yearColumn_ne_nil (initial contrib : ℚ) (draw : ℕ → ℚ)
    (years sims j : ℕ) (hs : 1 ≤ sims) :
    yearColumn initial contrib draw years sims j ≠ [] := by
  intro h
  have hlen := congrArg List.length h
  rw [yearColumn, length_column, allSimulations, length_allSimulationsFrom] at hlen
  simp at hlen
  omega

/-- C4: for every year column of the simulation matrix, the percentiles
computed with linear-interpolation semantics are ordered:
p5 ≤ p10 ≤ p25 ≤ p50 ≤ p75 ≤ p90 ≤ p95. -/
theorem percentile_ordering (initial contrib : ℚ) (draw : ℕ → ℚ)
    (years sims j : ℕ) (hs : 1 ≤ sims) :
    percentileLin (yearColumn initial contrib draw years sims j) 5 ≤
        percentileLin (yearColumn initial contrib draw years sims j) 10 ∧
      percentileLin (yearColumn initial contrib draw years sims j) 10 ≤
        percentileLin (yearColumn initial contrib draw years sims j) 25 ∧
      percentileLin (yearColumn initial contrib draw years sims j) 25 ≤
        percentileLin (yearColumn initial contrib draw years sims j) 50 ∧
      percentileLin (yearColumn initial contrib draw years sims j) 50 ≤
        percentileLin (yearColumn initial contrib draw years sims j) 75 ∧
      percentileLin (yearColumn initial contrib draw years sims j) 75 ≤
        percentileLin (yearColumn initial contrib draw years sims j) 90 ∧
      percentileLin (yearColumn initial contrib draw years sims j) 90 ≤
        percentileLin (yearColumn initial contrib draw years sims j) 95 := by
  have hne := yearColumn_ne_nil initial contrib draw years sims j hs
  exact ⟨percentileLin_mono _ hne (by norm_num) (by norm_num) (by norm_num),
    percentileLin_mono _ hne (by norm_num) (by norm_num) (by norm_num),
    percentileLin_mono _ hne (by norm_num) (by norm_num) (by norm_num),
    percentileLin_mono _ hne (by norm_num) (by norm_num) (by norm_num),
    percentileLin_mono _ hne (by norm_num) (by norm_num) (by norm_num),
    percentileLin_mono _ hne (by norm_num) (by norm_num) (by norm_num)⟩

theorem percentile_ordering_w :
    percentileLin (yearColumn 0 0 (fun _ => 0) 1 1 0) 5 ≤
        percentileLin (yearColumn 0 0 (fun _ => 0) 1 1 0) 10 ∧
      percentileLin (yearColumn 0 0 (fun _ => 0) 1 1 0) 10 ≤
        percentileLin (yearColumn 0 0 (fun _ => 0) 1 1 0) 25 ∧
      percentileLin (yearColumn 0 0 (fun _ => 0) 1 1 0) 25 ≤
        percentileLin (yearColumn 0 0 (fun _ => 0) 1 1 0) 50 ∧
      percentileLin (yearColumn 0 0 (fun _ => 0) 1 1 0) 50 ≤
        percentileLin (yearColumn 0 0 (fun _ => 0) 1 1 0) 75 ∧
      percentileLin (yearColumn 0 0 (fun _ => 0) 1 1 0) 75 ≤
        percentileLin (yearColumn 0 0 (fun _ => 0) 1 1 0) 90 ∧
      percentileLin (yearColumn 0 0 (fun _ => 0) 1 1 0) 90 ≤
        percentileLin (yearColumn 0 0 (fun _ => 0) 1 1 0) 95 :=
  percentile_ordering 0 0 (fun _ => 0) 1 1 0 (by decide)

/-! ### Final-balance distribution and probability estimates
(lines 206, 300-301) -/

/-- np.mean over a list. -/
def meanList (xs : List ℚ) : ℚ := xs.sum / xs.length

/-- np.mean(xs > t): the fraction of entries strictly greater than `t`. -/
def fractionGreater (xs : List ℚ) (t : ℚ) : ℚ :=
  ((xs.countP fun x => decide (t < x)) : ℚ) / xs.length

/-- The last column of the simulation matrix, `sim_array[:, -1]` (line 206). -/
def finalBalances (p : SimulationParameters) (draw : ℕ → ℚ) : List ℚ :=
  column (allSimulations p.initial_balance p.annual_contribution draw
    p.years p.simulation_count) (p.years - 1)

/-- Line 300: `prob_positive`, displayed as a percentage. -/
def prob_positive (p : SimulationParameters) (draw : ℕ → ℚ) : ℚ :=
  fractionGreater (finalBalances p draw) (totalInvestedFinal p) * 100

/-- Line 301: `prob_double`, displayed as a percentage. -/
def prob_double (p : SimulationParameters) (draw : ℕ → ℚ) : ℚ :=
  fractionGreater (finalBalances p draw) (totalInvestedFinal p * 2) * 100

theorem fractionGreater_nonneg (xs : List ℚ) (t : ℚ) :
    0 ≤ fractionGreater xs t := by
  unfold fractionGreater
  positivity

theorem fractionGreater_le_one (xs : List ℚ) (t : ℚ) :
    fractionGreater xs t ≤ 1 := by
  unfold fractionGreater
  apply div_le_one_of_le
  · exact_mod_cast List.countP_le_length _
  · positivity

theorem fractionGreater_anti (xs : List ℚ) {t1 t2 : ℚ} (h : t1 ≤ t2) :
    fractionGreater xs t2 ≤ fractionGreater xs t1 := by
  unfold fractionGreater
  rcases Nat.eq_zero_or_pos xs.length with h0 | h0
  · rw [h0]
    norm_num
  · have hlen : (0 : ℚ) < (xs.length : ℚ) := by exact_mod_cast h0
    apply div_le_div_of_nonneg_right ?_ (le_of_lt hlen)
    have hcount : (xs.countP fun x => decide (t2 < x)) ≤
        xs.countP fun x => decide (t1 < x) := by
      apply List.countP_mono_left
      intro a _ ha
      simp only [decide_eq_true_eq] at ha ⊢
      linarith
    exact_mod_cast hcount

/-- C8: the probability of profit is the fraction of paths whose final
balance strictly exceeds total_invested, the probability of doubling the
fraction strictly exceeding 2 * total_invested (the displayed variables
scale these fractions by 100); both fractions lie in [0, 1] and doubling
implies profit whenever total_invested is non-negative. -/
theorem probability_bounds (p : SimulationParameters) (draw : ℕ → ℚ)
    (hs : 1 ≤ p.simulation_count) :
    0 ≤ fractionGreater (finalBalances p draw) (totalInvestedFinal p) ∧
      fractionGreater (finalBalances p draw) (totalInvestedFinal p) ≤ 1 ∧
      0 ≤ fractionGreater (finalBalances p draw) (totalInvestedFinal p * 2) ∧
      fractionGreater (finalBalances p draw) (totalInvestedFinal p * 2) ≤ 1 ∧
      (0 ≤ totalInvestedFinal p →
        fractionGreater (finalBalances p draw) (totalInvestedFinal p * 2) ≤
          fractionGreater (finalBalances p draw) (totalInvestedFinal p)) ∧
      prob_positive p draw =
        fractionGreater (finalBalances p draw) (totalInvestedFinal p) * 100 ∧
      prob_double p draw =
        fractionGreater (finalBalances p draw) (totalInvestedFinal p * 2) * 100 :=
  ⟨fractionGreater_nonneg _ _, fractionGreater_le_one _ _,
    fractionGreater_nonneg _ _, fractionGreater_le_one _ _,
    fun hT => fractionGreater_anti _ (by linarith), rfl, rfl⟩

theorem probability_bounds_w :
    0 ≤ fractionGreater (finalBalances paramsSimple (fun _ => 0))
      (totalInvestedFinal paramsSimple) :=
  (probability_bounds paramsSimple (fun _ => 0) (by decide)).1

/-! ### C5: determinism of the run as a two-run statement

The only nondeterminism in the source is the numpy generator; it is seeded
with the constant 42 (line 179), so two runs see the same draw stream.  The
theorems below show that the entire output is a function of the parameters
and of the finitely many draws consumed (simulation_count * years of them),
so identical parameters and an identical stream give identical outputs. -/

/-- The percentile curve over the year columns (lines 196-202). -/
def percentileCurve (m : List (List ℚ)) (years : ℕ) (pq : ℚ) : List ℚ :=
  (List.range years).map fun j => percentileLin (column m j) pq

/-- The mean curve over the year columns (line 203). -/
def avgCurve (m : List (List ℚ)) (years : ℕ) : List ℚ :=
  (List.range years).map fun j => meanList (column m j)

/-- Everything the engine computes from one parameter set and one draw
stream: the base case, the matrix, the seven percentile curves, the mean
curve, the final-balance distribution and the two probability metrics. -/
structure EngineOutput where
  base_case : List YearlyRecord
  matrix : List (List ℚ)
  curve5 : List ℚ
  curve10 : List ℚ
  curve25 : List ℚ
  curve50 : List ℚ
  curve75 : List ℚ
  curve90 : List ℚ
  curve95 : List ℚ
  curveAvg : List ℚ
  final_balances : List ℚ
  prob_positive : ℚ
  prob_double : ℚ

/-- One full run of the engine. -/
def compute (p : SimulationParameters) (draw : ℕ → ℚ) : EngineOutput :=
  { base_case := baseCase p
    matrix := allSimulations p.initial_balance p.annual_contribution draw
      p.years p.simulation_count
    curve5 := percentileCurve (allSimulations p.initial_balance
      p.annual_contribution draw p.years p.simulation_count) p.years 5
    curve10 := percentileCurve (allSimulations p.initial_balance
      p.annual_contribution draw p.years p.simulation_count) p.years 10
    curve25 := percentileCurve (allSimulations p.initial_balance
      p.annual_contribution draw p.years p.simulation_count) p.years 25
    curve50 := percentileCurve (allSimulations p.initial_balance
      p.annual_contribution draw p.years p.simulation_count) p.years 50
    curve75 := percentileCurve (allSimulations p.initial_balance
      p.annual_contribution draw p.years p.simulation_count) p.years 75
    curve90 := percentileCurve (allSimulations p.initial_balance
      p.annual_contribution draw p.years p.simulation_count) p.years 90
    curve95 := percentileCurve (allSimulations p.initial_balance
      p.annual_contribution draw p.years p.simulation_count) p.years 95
    curveAvg := avgCurve (allSimulations p.initial_balance
      p.annual_contribution draw p.years p.simulation_count) p.years
    final_balances := finalBalances p draw
    prob_positive := prob_positive p draw
    prob_double := prob_double p draw }

theorem simPathFrom_congr (contrib : ℚ) (d1 d2 : ℕ → ℚ) :
    ∀ (n k : ℕ) (bal : ℚ), (∀ i, k ≤ i → i < k + n → d1 i = d2 i) →
      simPathFrom contrib d1 bal k n = simPathFrom contrib d2 bal k n := by
  intro n
  induction n with
  | zero => intro k bal _; rfl
  | succ m ih =>
      intro k bal h
      have hk : d1 k = d2 k := h k (le_refl k) (by omega)
      rw [simPathFrom_succ, simPathFrom_succ, hk,
        ih (k + 1) _ fun i h1 h2 => h i (by omega) (by omega)]

theorem allSimulationsFrom_congr (initial contrib : ℚ) (d1 d2 : ℕ → ℚ)
    (years : ℕ) :
    ∀ (m k : ℕ), (∀ i, k ≤ i → i < k + m * years → d1 i = d2 i) →
      allSimulationsFrom initial contrib d1 years k m =
        allSimulationsFrom initial contrib d2 years k m := by
  intro m
  induction m with
  | zero => intro k _; rfl
  | succ j ih =>
      intro k h
      have hmul : (j + 1) * years = j * years + years := by ring
      rw [allSimulationsFrom_succ, allSimulationsFrom_succ,
        simPathFrom_congr contrib d1 d2 years k initial
          (fun i h1 h2 => h i h1 (by rw [hmul]; omega)),
        ih (k + years) fun i h1 h2 => h i (by omega) (by rw [hmul]; omega)]

theorem allSimulations_congr (initial contrib : ℚ) (d1 d2 : ℕ → ℚ)
    (years sims : ℕ) (h : ∀ i, i < sims * years → d1 i = d2 i) :
    allSimulations initial contrib d1 years sims =
      allSimulations initial contrib d2 years sims :=
  allSimulationsFrom_congr initial contrib d1 d2 years sims 0
    fun i _ h2 => h i (by omega)

/-- C5: two runs with identical parameters whose draw streams agree on the
simulation_count * years samples actually consumed (in particular, two runs
with the same seed) produce identical outputs: the same base case, the same
matrix, the same percentile and mean curves, the same final-balance
distribution and the same probability metrics. -/
theorem compute_deterministic (p : SimulationParameters) (d1 d2 : ℕ → ℚ)
    (h : ∀ i, i < p.simulation_count * p.years → d1 i = d2 i) :
    compute p d1 = compute p d2 := by
  have hm : allSimulations p.initial_balance p.annual_contribution d1
      p.years p.simulation_count =
        allSimulations p.initial_balance p.annual_contribution d2
          p.years p.simulation_count :=
    allSimulations_congr _ _ _ _ _ _ h
  unfold compute prob_positive prob_double finalBalances
  rw [hm]

theorem compute_deterministic_w :
    compute paramsSimple (fun _ => 0) = compute paramsSimple (fun _ => 0) :=
  compute_deterministic paramsSimple (fun _ => 0) (fun _ => 0) fun _ _ => rfl

/-! ### C2: behavior of the zero-divisor ratios

Line 214 divides two Python floats, so a zero divisor raises Python's
ZeroDivisionError (an uncaught crash, not a typed DivisionUndefined
condition).  Lines 367-372 divide numpy float64 scalars by the Python float
`balance`, which does not raise: numpy IEEE division silently yields NaN
(0/0) or ±Inf (x/0).  Both behaviors are modelled here. -/

/-- Result of a Python float binary operation: either a value or the
ZeroDivisionError exception. -/
inductive PyResult where
  | ok (q : ℚ)
  | zeroDivisionError
deriving DecidableEq, Repr

/-- Python float division: raises ZeroDivisionError on a zero divisor. -/
def pyDiv (a b : ℚ) : PyResult :=
  if b = 0 then .zeroDivisionError else .ok (a / b)

/-- A numpy float64 value: finite, infinite or NaN. -/
inductive NpVal where
  | fin (q : ℚ)
  | posInf
  | negInf
  | nan
deriving DecidableEq, Repr

/-- numpy float64 division: a zero divisor silently yields NaN (for 0/0)
or a signed infinity, never an exception. -/
def npDiv (a b : ℚ) : NpVal :=
  if b = 0 then (if a = 0 then .nan else if 0 < a then .posInf else .negInf)
  else .fin (a / b)

/-- The affine display transform ((x) - 1) * 100 applied to a numpy value
(NaN and infinities propagate). -/
def npSub1Mul100 : NpVal → NpVal
  | .fin q => .fin ((q - 1) * 100)
  | .posInf => .posInf
  | .negInf => .negInf
  | .nan => .nan

/-- Line 214: the Total Return metric
((balance - total_invested) / total_invested) * 100, a Python float
division. -/
def totalReturnPct (p : SimulationParameters) : PyResult :=
  match pyDiv (finalBalance p - totalInvestedFinal p) (totalInvestedFinal p) with
  | .ok q => .ok (q * 100)
  | .zeroDivisionError => .zeroDivisionError

/-- Lines 367-372: one vs.-Base-Case entry
((np.percentile(final_balances, pq) / balance) - 1) * 100, a numpy float64
division by the base-case final balance. -/
def vsBaseCasePct (p : SimulationParameters) (draw : ℕ → ℚ) (pq : ℚ) : NpVal :=
  npSub1Mul100 (npDiv (percentileLin (finalBalances p draw) pq) (finalBalance p))

/-- Valid parameters with initial_balance = 0 and annual_contribution = 0,
hence total_invested = 0. -/
def paramsZero : SimulationParameters :=
  { initial_balance := 0
    annual_return_pct := 7
    years := 1
    annual_contribution := 0
    volatility_pct := 15
    simulation_count := 100 }

/-- C2 evaluation at the failing input: when total_invested = 0 the Total
Return metric hits Python's untyped ZeroDivisionError (an uncaught crash)
while the vs.-Base-Case percentages silently evaluate to NaN; no distinct
DivisionUndefined condition is surfaced anywhere. -/
theorem division_by_zero_behavior :
    ValidParams paramsZero ∧
      totalInvestedFinal paramsZero = 0 ∧
      totalReturnPct paramsZero = PyResult.zeroDivisionError ∧
      vsBaseCasePct paramsZero (fun _ => 0) 50 = NpVal.nan := by
  refine ⟨by decide, ?_, ?_, ?_⟩
  · with_unfolding_all rfl
  · with_unfolding_all rfl
  · with_unfolding_all rfl
